import Mathlib

/-!
Verification of the `no-inline-multiline-types` ESLint rule
(`src/lib/rules/no-inline-multiline-types.mjs`).

The development shallowly embeds the rule's four components:

* `toPascalCase` / `collapseUnderscores` — the helper at the top of the file;
* `findInsertionPointAncestor` / `fipaGo`    — the upward parent-link walk that
  picks the statement before which the extracted alias is inserted (the JS
  `while (currentNode.parent)` loop becomes structural recursion over the
  explicit ancestor chain, and the function returns the *index* of the chosen
  node in the chain: `0` is the start node, `i + 1` is `ancestors[i]`);
* `deriveTypeName`  — the naming heuristic over the annotation's parent view;
* `checkMultilineLiteralInAnn` / `travStmts` — the per-site check
  (`checkMultilineLiteralInAnnotation` in the source) and the host traversal
  driving the three visitor keys `VariableDeclarator`, `PropertyDefinition`
  and `:function`.

Node kinds carry the source's ESTree names, except that the name of the
`TSTypeAnnotation` kind is shortened to `TSTypeAnn`.
-/

/-- ESTree / TSESTree node kinds the rule inspects. `OtherNode` stands for any
kind the rule never treats specially. -/
inductive NodeType where
  | Program
  | VariableDeclaration
  | VariableDeclarator
  | Identifier
  | ObjectPattern
  | ArrayPattern
  | FunctionDeclaration
  | FunctionExpression
  | ArrowFunctionExpression
  | ClassDeclaration
  | ClassBody
  | PropertyDefinition
  | MethodDefinition
  | TSParameterProperty
  | TSTypeAnn
  | TSTypeLiteral
  | TSTypeAliasDeclaration
  | TSInterfaceDeclaration
  | ExportNamedDeclaration
  | ExportDefaultDeclaration
  | BlockStatement
  | SwitchStatement
  | SwitchCase
  | ExpressionStatement
  | OtherNode
deriving DecidableEq

/-- One pass of the `/_([a-z])/g` replacement in `toPascalCase`: an underscore
followed by an ASCII lowercase letter is collapsed into the upper-cased
letter; scanning resumes after each match, exactly like the global regex. -/
def collapseUnderscores : List Char → List Char
  | [] => []
  | ['_'] => ['_']
  | '_' :: c :: rest =>
      if 97 ≤ c.toNat ∧ c.toNat ≤ 122 then
        c.toUpper :: collapseUnderscores rest
      else
        '_' :: collapseUnderscores (c :: rest)
  | c :: rest => c :: collapseUnderscores rest

/-- Embedding of the source's `toPascalCase`: the falsy guard returns `""` for
the empty string, snake case is collapsed first, then the first character of
the result is upper-cased. -/
def toPascalCase (str : String) : String :=
  if str = "" then ""
  else
    match collapseUnderscores str.data with
    | [] => ""
    | c :: rest => String.mk (c.toUpper :: rest)

/-- A node of the upward parent chain used by `findInsertionPointAncestor`.
`declarationType` is the kind of the node's `declaration` child when the node
is an export wrapper that has one (`none` models a null/absent child). -/
structure ChainNode where
  type : NodeType
  declarationType : Option NodeType
deriving DecidableEq

/-- The `targetAncestorTypes` set of the source. -/
def targetAncestorTypes (t : NodeType) : Bool :=
  match t with
  | NodeType.VariableDeclaration => true
  | NodeType.FunctionDeclaration => true
  | NodeType.ClassDeclaration => true
  | NodeType.TSInterfaceDeclaration => true
  | NodeType.TSTypeAliasDeclaration => true
  | _ => false

/-- The `validParentContextTypes` set of the source. -/
def validParentContextTypes (t : NodeType) : Bool :=
  match t with
  | NodeType.Program => true
  | NodeType.BlockStatement => true
  | NodeType.ExportNamedDeclaration => true
  | NodeType.ExportDefaultDeclaration => true
  | _ => false

/-- The two export wrapper kinds tested throughout the source. -/
def isExportType (t : NodeType) : Bool :=
  match t with
  | NodeType.ExportNamedDeclaration => true
  | NodeType.ExportDefaultDeclaration => true
  | _ => false

/-- The `currentNode.declaration && targetAncestorTypes.has(...)` test of the
source: the wrapped declaration exists and is a target kind. -/
def declarationIsTarget (n : ChainNode) : Bool :=
  match n.declarationType with
  | some d => targetAncestorTypes d
  | none => false

/-- The body of the `while (currentNode.parent)` loop of
`findInsertionPointAncestor`. `current` sits at index `idx` of the chain and
the list argument holds its strict ancestors, nearest first; an empty list
means `currentNode.parent` is null, so the loop exits and the function falls
through to `return null`. -/
def fipaGo (startNode : ChainNode) : ChainNode → Nat → List ChainNode → Option Nat
  | _, _, [] => none
  | current, idx, parent :: above =>
      if targetAncestorTypes current.type && validParentContextTypes parent.type then
        if isExportType parent.type then some (idx + 1) else some idx
      else if isExportType current.type && declarationIsTarget current then
        some idx
      else if parent.type = NodeType.Program then
        if targetAncestorTypes startNode.type then some 0 else none
      else
        fipaGo startNode parent (idx + 1) above

/-- Embedding of `findInsertionPointAncestor`: resolves the insertion anchor
for an annotation whose node is `startNode` and whose ancestor chain, nearest
first, is `ancestors`. Returns the index of the anchor in the chain
(`0` = `startNode`, `i + 1` = `ancestors[i]`), or `none` for the `return null`
failure path. -/
def findInsertionPointAncestor (startNode : ChainNode) (ancestors : List ChainNode) :
    Option Nat :=
  fipaGo startNode startNode 0 ancestors

/-- View of `typeAnnotationNode.parent.parent` with the fields the naming
heuristic reads. `idName`/`idType` model `.id?.name` and `.id.type`;
`paramsIncludeParent` models `.params && .params.includes(parent)`;
`parameterIsParent` models `.parameter === parent`. -/
structure GrandNode where
  gtype : NodeType
  paramsIncludeParent : Bool
  parameterIsParent : Bool
  idName : Option String
  idType : Option NodeType
deriving DecidableEq

/-- View of `typeAnnotationNode.parent` with the fields the naming heuristic
reads. `name` is the identifier's own name when the parent is an `Identifier`;
`keyType`/`keyName` model `.key`; `isReturnTypeOfParent` models
`parent.returnType === typeAnnotationNode`; `funcIdName` models `.id?.name`;
`parameterType`/`parameterName` model `.parameter` of a
`TSParameterProperty`. -/
structure ParentNode where
  type : NodeType
  name : String
  grand : Option GrandNode
  keyType : Option NodeType
  keyName : String
  isReturnTypeOfParent : Bool
  funcIdName : Option String
  parameterType : Option NodeType
  parameterName : String
deriving DecidableEq

/-- The three function kinds the source compares against. -/
def isFunctionType (t : NodeType) : Bool :=
  match t with
  | NodeType.FunctionDeclaration => true
  | NodeType.FunctionExpression => true
  | NodeType.ArrowFunctionExpression => true
  | _ => false

/-- JavaScript string falsiness for an optional name: absent or empty. -/
def strFalsy : Option String → Bool
  | none => true
  | some s => s = ""

/-- Guard of Case 1 of `deriveTypeName`: variable declaration. -/
def case1Guard (p : ParentNode) : Bool :=
  match p.type, p.grand with
  | NodeType.Identifier, some g => g.gtype = NodeType.VariableDeclarator
  | _, _ => false

/-- Guard of Case 2, first inner return: a direct parameter identifier. -/
def case2aGuard (p : ParentNode) : Bool :=
  match p.type, p.grand with
  | NodeType.Identifier, some g =>
      (isFunctionType g.gtype || g.gtype = NodeType.TSParameterProperty)
        && g.paramsIncludeParent
  | _, _ => false

/-- Guard of Case 2, second inner return: the identifier inside a
`TSParameterProperty`. -/
def case2bGuard (p : ParentNode) : Bool :=
  match p.type, p.grand with
  | NodeType.Identifier, some g =>
      (g.gtype = NodeType.TSParameterProperty : Bool) && g.parameterIsParent
  | _, _ => false

/-- Guard of Case 3: destructured object parameter. -/
def case3Guard (p : ParentNode) : Bool :=
  match p.type, p.grand with
  | NodeType.ObjectPattern, some g => isFunctionType g.gtype
  | _, _ => false

/-- Guard of Case 4: destructured array parameter. -/
def case4Guard (p : ParentNode) : Bool :=
  match p.type, p.grand with
  | NodeType.ArrayPattern, some g => isFunctionType g.gtype
  | _, _ => false

/-- Guard of Case 5: class property with identifier key. -/
def case5Guard (p : ParentNode) : Bool :=
  (p.type = NodeType.PropertyDefinition : Bool)
    && (p.keyType = some NodeType.Identifier : Bool)

/-- Guard of Case 6: function return type. -/
def case6Guard (p : ParentNode) : Bool :=
  isFunctionType p.type && p.isReturnTypeOfParent

/-- Guard of Case 7: annotation attached to the `TSParameterProperty` itself. -/
def case7Guard (p : ParentNode) : Bool :=
  (p.type = NodeType.TSParameterProperty : Bool)
    && (p.parameterType = some NodeType.Identifier : Bool)

/-- The `parent.parent.type === VariableDeclarator && parent.parent.id.type
=== Identifier` test of Case 6's anonymous branch. -/
def grandIsVarDeclIdent (p : ParentNode) : Bool :=
  match p.grand with
  | some g =>
      (g.gtype = NodeType.VariableDeclarator : Bool)
        && (g.idType = some NodeType.Identifier : Bool)
  | none => false

/-- The `parent.parent.id.name` read in Case 6's anonymous branch. -/
def grandIdNameOrEmpty (p : ParentNode) : String :=
  match p.grand with
  | some g =>
      match g.idName with
      | some n => n
      | none => ""
  | none => ""

/-- Embedding of `deriveTypeName`. The input is the view of the annotation
node's parent (`none` models `!parent`). Cases are tried in source order; a
case whose outer guard matches but whose inner returns do not fire falls
through to the next case, as in the source. The `try`/`catch` wrapper has no
effect in this total embedding; its `return 'ExtractedType'` fallback is the
final branch. -/
def deriveTypeName (parent : Option ParentNode) : String :=
  match parent with
  | none => "ExtractedType"
  | some p =>
      if case1Guard p then toPascalCase p.name ++ "Type"
      else if case2aGuard p then toPascalCase p.name ++ "Type"
      else if case2bGuard p then toPascalCase p.name ++ "Type"
      else if case3Guard p then
        match p.grand with
        | some g =>
            match g.idName with
            | some n => if n = "" then "PropsType" else toPascalCase n ++ "Props"
            | none => "PropsType"
        | none => "PropsType"
      else if case4Guard p then "ParamsType"
      else if case5Guard p then toPascalCase p.keyName ++ "Type"
      else if case6Guard p then
        if strFalsy p.funcIdName && grandIsVarDeclIdent p then
          toPascalCase (grandIdNameOrEmpty p) ++ "ReturnType"
        else
          toPascalCase
            (match p.funcIdName with
             | some n => if n = "" then "Function" else n
             | none => "Function") ++ "ReturnType"
      else if case7Guard p then toPascalCase p.parameterName ++ "Type"
      else "ExtractedType"

/-- A source range as reported by the parser: 1-based start/end line and
column. Findings are keyed by the range of the reported literal node. -/
structure Range where
  startLine : Nat
  startCol : Nat
  endLine : Nat
  endCol : Nat
deriving DecidableEq

/-- A type expression occupying an annotation slot. A `typeLiteral` is a
`TSTypeLiteral` with its range and its members (member name paired with the
member's own annotated type, present in the data so that nested literals
exist, but never entered by the rule's visitors); `otherType` is any other
type kind. -/
inductive TsType where
  | typeLiteral (range : Range) (members : List (String × Option TsType))
  | otherType (range : Range)

/-- A binding pattern: identifier, object pattern or array pattern, each with
an optional type annotation (`some t` models a `TSTypeAnnotation` wrapping
`t`). -/
inductive Pat where
  | ident (name : String) (ann : Option TsType)
  | objectPattern (ann : Option TsType)
  | arrayPattern (ann : Option TsType)

/-- A formal parameter of a function-like node: a plain pattern or a
`TSParameterProperty` wrapping one. -/
inductive Param where
  | plain (p : Pat)
  | parameterProperty (p : Pat)

mutual

/-- Statements of the embedded tree, covering the shapes the rule's visitors
and traversal can meet. Type aliases and interfaces keep their (never
visited) right-hand sides in the data. -/
inductive Stmt where
  | variableDeclaration (decls : DeclList)
  | functionDeclaration (name : Option String) (params : List Param)
      (returnType : Option TsType) (body : StmtList)
  | classDeclaration (name : Option String) (members : MemberList)
  | typeAliasDeclaration (name : String) (rhs : TsType)
  | interfaceDeclaration (name : String) (members : List (String × Option TsType))
  | exportNamedDeclaration (decl : Stmt)
  | exportDefaultDeclaration (decl : Stmt)
  | blockStatement (body : StmtList)
  | expressionStatement (e : Expr)

/-- A list of statements (fused into the mutual block for structural
recursion). -/
inductive StmtList where
  | nil
  | cons (s : Stmt) (rest : StmtList)

/-- The declarators of one `VariableDeclaration`: binding pattern plus
optional initializer expression. -/
inductive DeclList where
  | nil
  | cons (id : Pat) (init : OptExpr) (rest : DeclList)

/-- An optional initializer expression. -/
inductive OptExpr where
  | none
  | some (e : Expr)

/-- Expressions the traversal descends into; `otherExpr` is any expression
holding no function-like or class-like subtree relevant to the rule. -/
inductive Expr where
  | functionExpression (name : Option String) (params : List Param)
      (returnType : Option TsType) (body : StmtList)
  | arrowFunctionExpression (params : List Param)
      (returnType : Option TsType) (body : StmtList)
  | otherExpr

/-- The members of a class body. -/
inductive MemberList where
  | nil
  | cons (m : ClassMember) (rest : MemberList)

/-- A class body member: a `PropertyDefinition` with an optional annotation,
or a method (the constructor included) whose value is a function
expression. -/
inductive ClassMember where
  | propertyDefinition (key : String) (ann : Option TsType)
  | methodDefinition (params : List Param) (returnType : Option TsType)
      (body : StmtList)

end

/-- The annotation carried by a pattern. -/
def patAnn : Pat → Option TsType
  | Pat.ident _ a => a
  | Pat.objectPattern a => a
  | Pat.arrayPattern a => a

/-- Detection component of `checkMultilineLiteralInAnnotation`: the ranges the
rule reports for one annotation slot. The source reports whenever the
annotated type is a `TSTypeLiteral` — there is no check on the literal's line
span — so the result is the literal's range exactly when the slot holds an
object-type literal, whatever its span. -/
def annLiteralRanges (ann : Option TsType) : List Range :=
  match ann with
  | some (TsType.typeLiteral r _) => [r]
  | _ => []

/-- The `:function` visitor's parameter loop: a plain parameter contributes
its own annotation; a `TSParameterProperty` reaches the `else if` branch and
contributes its wrapped parameter's annotation. `f` is the per-slot action
(the detection component above, or the spec-side candidate predicate). -/
def paramRanges (f : Option TsType → List Range) : List Param → List Range
  | [] => []
  | Param.plain q :: rest => f (patAnn q) ++ paramRanges f rest
  | Param.parameterProperty q :: rest => f (patAnn q) ++ paramRanges f rest

mutual

/-- Host traversal over a statement list, firing the rule's visitors
(`VariableDeclarator`, `PropertyDefinition`, `:function`) at every matching
node in pre-order and collecting the per-slot results of `f`. -/
def travStmts (f : Option TsType → List Range) : StmtList → List Range
  | StmtList.nil => []
  | StmtList.cons s rest => travStmt f s ++ travStmts f rest

/-- Traversal of a single statement. Type-alias and interface declarations
contribute nothing: their subtrees hold only type-level nodes
(`TSPropertySignature` and the like), which none of the rule's three visitor
keys matches. -/
def travStmt (f : Option TsType → List Range) : Stmt → List Range
  | Stmt.variableDeclaration ds => travDecls f ds
  | Stmt.functionDeclaration _ ps rt body =>
      f rt ++ paramRanges f ps ++ travStmts f body
  | Stmt.classDeclaration _ ms => travMembers f ms
  | Stmt.typeAliasDeclaration _ _ => []
  | Stmt.interfaceDeclaration _ _ => []
  | Stmt.exportNamedDeclaration d => travStmt f d
  | Stmt.exportDefaultDeclaration d => travStmt f d
  | Stmt.blockStatement b => travStmts f b
  | Stmt.expressionStatement e => travExpr f e

/-- Traversal of the declarators: the `VariableDeclarator` visitor checks
`node.id.typeAnnotation`, then the traversal descends into the
initializer. -/
def travDecls (f : Option TsType → List Range) : DeclList → List Range
  | DeclList.nil => []
  | DeclList.cons id init rest =>
      f (patAnn id) ++ travOptExpr f init ++ travDecls f rest

/-- Traversal of an optional initializer. -/
def travOptExpr (f : Option TsType → List Range) : OptExpr → List Range
  | OptExpr.none => []
  | OptExpr.some e => travExpr f e

/-- Traversal of an expression: function-like expressions fire the
`:function` visitor (return type first, then the parameters, matching the
handler's order), then the traversal descends into the body. -/
def travExpr (f : Option TsType → List Range) : Expr → List Range
  | Expr.functionExpression _ ps rt body =>
      f rt ++ paramRanges f ps ++ travStmts f body
  | Expr.arrowFunctionExpression ps rt body =>
      f rt ++ paramRanges f ps ++ travStmts f body
  | Expr.otherExpr => []

/-- Traversal of class members. -/
def travMembers (f : Option TsType → List Range) : MemberList → List Range
  | MemberList.nil => []
  | MemberList.cons m rest => travMember f m ++ travMembers f rest

/-- Traversal of one class member: the `PropertyDefinition` visitor checks the
property's annotation; a method's function expression fires `:function`. -/
def travMember (f : Option TsType → List Range) : ClassMember → List Range
  | ClassMember.propertyDefinition _ ann => f ann
  | ClassMember.methodDefinition ps rt body =>
      f rt ++ paramRanges f ps ++ travStmts f body

end

/-- The multiline test of the specification: the literal's source range spans
more than one line. (The source code never performs this test.) -/
def multilinePred (r : Range) : Bool := !(r.startLine == r.endLine)

/-- Candidate predicate following the spec's words: a qualifying annotation
slot yields a finding exactly when it holds an object-type literal whose
range spans more than one line, keyed by that literal's own range. -/
def specAnnLiteral (ann : Option TsType) : List Range :=
  match ann with
  | some (TsType.typeLiteral r _) => if multilinePred r then [r] else []
  | _ => []

/-- The findings (ranges of reported literals) the rule produces on a file. -/
def ruleFindings : StmtList → List Range := travStmts annLiteralRanges

/-- The multiline candidates of the specification, enumerated by the same
host traversal over the same qualifying annotation sites. -/
def specCandidates : StmtList → List Range := travStmts specAnnLiteral

/-- A text edit of the produced fix: an insertion immediately before the first
character of the chain node at `anchorIdx` (`fixer.insertTextBefore`), or a
replacement of an exact source range (`fixer.replaceText`). -/
inductive Edit where
  | insertBefore (anchorIdx : Nat) (text : String)
  | replaceText (range : Range) (text : String)
deriving DecidableEq

/-- Everything the `fix` callback of the report reads: the parent view for
naming, the annotation node with its ancestor chain for anchor resolution, and
the literal's verbatim source text and range. -/
structure FixInput where
  parent : Option ParentNode
  startNode : ChainNode
  ancestors : List ChainNode
  literalText : String
  literalRange : Range
deriving DecidableEq

/-- Embedding of the `fix` callback: derive the name, build
`type <Name> = <literal text>;` followed by a blank line, resolve the
insertion anchor, and return the two edits — or `none` (the callback's
`return null`) when resolution fails. -/
def ruleFix (inp : FixInput) : Option (List Edit) :=
  let newTypeName := deriveTypeName inp.parent
  let typeAliasString := "type " ++ newTypeName ++ " = " ++ inp.literalText ++ ";\n\n"
  match findInsertionPointAncestor inp.startNode inp.ancestors with
  | none => none
  | some idx =>
      some [Edit.insertBefore idx typeAliasString,
            Edit.replaceText inp.literalRange newTypeName]

/-- The node in the annotation slot (`typeAnnotationNode.typeAnnotation`):
kind, source range, verbatim source text. -/
structure LitNode where
  type : NodeType
  range : Range
  text : String
deriving DecidableEq

/-- One visited annotation site with its full context: the annotation node's
own kind, the node in its slot, and the inputs the fix callback would read. -/
structure AnnSite where
  annType : NodeType
  inner : Option LitNode
  parent : Option ParentNode
  startNode : ChainNode
  ancestors : List ChainNode
deriving DecidableEq

/-- A reported finding: the reported literal's range, and the fix the
callback produced (`none` when the callback returned null, so the host
records the finding without an automatic rewrite). -/
structure Finding where
  range : Range
  fix : Option (List Edit)
deriving DecidableEq

/-- Embedding of `checkMultilineLiteralInAnnotation`, fix included: a null or
non-annotation node produces nothing; otherwise the site is reported exactly
when its slot holds a `TSTypeLiteral` (no line-span test occurs), keyed by the
literal's range and carrying the fix callback's result. -/
def checkMultilineLiteralInAnn (ann : Option AnnSite) : Option Finding :=
  match ann with
  | none => none
  | some site =>
      if site.annType = NodeType.TSTypeAnn then
        match site.inner with
        | some lit =>
            if lit.type = NodeType.TSTypeLiteral then
              some { range := lit.range,
                     fix := ruleFix { parent := site.parent,
                                      startNode := site.startNode,
                                      ancestors := site.ancestors,
                                      literalText := lit.text,
                                      literalRange := lit.range } }
            else none
        | none => none
      else none

/-- Range of the single-line literal of `let cfg: { host: string; port: number };`
(the second invalid case of the shipped test file). -/
def c1Range : Range := ⟨1, 10, 1, 39⟩

/-- The one-statement program `let cfg: { host: string; port: number };`,
whose annotation literal spans exactly one line. -/
def c1Prog : StmtList :=
  StmtList.cons
    (Stmt.variableDeclaration
      (DeclList.cons
        (Pat.ident "cfg"
          (Option.some (TsType.typeLiteral c1Range
            [("host", Option.none), ("port", Option.none)])))
        OptExpr.none DeclList.nil))
    StmtList.nil

/-- Range of the multiline parameter literal of the `PureSendButton`
example. -/
def r2outer : Range := ⟨6, 10, 10, 7⟩

/-- Range of a multiline object-type literal nested inside a member of the
`PureSendButton` parameter literal. -/
def r2nested : Range := ⟨8, 16, 9, 9⟩

/-- A `PureSendButton`-style program: one function whose destructured object
parameter is annotated with a multiline literal that itself contains a nested
multiline object-type member. -/
def w2prog : StmtList :=
  StmtList.cons
    (Stmt.functionDeclaration (Option.some "PureSendButton")
      [Param.plain (Pat.objectPattern
        (Option.some (TsType.typeLiteral r2outer
          [("submitForm", Option.some (TsType.otherType ⟨7, 16, 7, 28⟩)),
           ("config", Option.some (TsType.typeLiteral r2nested
             [("text", Option.some (TsType.otherType ⟨8, 24, 8, 30⟩))]))])))]
      Option.none StmtList.nil)
    StmtList.nil

/-- Fix inputs for the annotation of `let cfg: { host: string; port: number };`:
the parent view is the `cfg` identifier under a declarator, and the ancestor
chain runs Identifier → VariableDeclarator → VariableDeclaration → Program. -/
def w4inp : FixInput :=
  { parent := Option.some
      ⟨NodeType.Identifier, "cfg",
        Option.some ⟨NodeType.VariableDeclarator, false, false, Option.none, Option.none⟩,
        Option.none, "", false, Option.none, Option.none, ""⟩,
    startNode := ⟨NodeType.TSTypeAnn, Option.none⟩,
    ancestors := [⟨NodeType.Identifier, Option.none⟩,
      ⟨NodeType.VariableDeclarator, Option.none⟩,
      ⟨NodeType.VariableDeclaration, Option.none⟩,
      ⟨NodeType.Program, Option.none⟩],
    literalText := "\x7b host: string; port: number \x7d",
    literalRange := ⟨1, 10, 1, 39⟩ }

/-- The two edits `ruleFix` produces on `w4inp`: insert the alias declaration
before the `VariableDeclaration` (chain index 3) and replace the literal's
range by the derived name. -/
def w4edits : List Edit :=
  [Edit.insertBefore 3 "type CfgType = \x7b host: string; port: number \x7d;\n\n",
   Edit.replaceText ⟨1, 10, 1, 39⟩ "CfgType"]

/-- A multiline `TSTypeLiteral` node occupying an annotation slot. -/
def w5lit : LitNode := ⟨NodeType.TSTypeLiteral, ⟨3, 5, 5, 6⟩, "\x7b a: string \x7d"⟩

/-- A visited annotation site whose ancestor chain holds no target
declaration, so insertion-point resolution fails on it. -/
def w5site : AnnSite :=
  ⟨NodeType.TSTypeAnn, Option.some w5lit, Option.none,
    ⟨NodeType.TSTypeAnn, Option.none⟩, [⟨NodeType.Program, Option.none⟩]⟩

/-- A parent view matching none of the naming cases (the annotation hangs off
a node kind the heuristic does not handle). -/
def c6ctx : ParentNode :=
  ⟨NodeType.OtherNode, "", Option.none, Option.none, "", false, Option.none,
    Option.none, ""⟩

/-- Parent view of the return-type annotation of `function fetchData(): ...`. -/
def c8ctx : ParentNode :=
  ⟨NodeType.FunctionDeclaration, "", Option.none, Option.none, "", true,
    Option.some "fetchData", Option.none, ""⟩

/-- Grandparent view for the destructured parameter of
`function PureSendButton({...}: ...)`. -/
def c9grand : GrandNode :=
  ⟨NodeType.FunctionDeclaration, true, false, Option.some "PureSendButton",
    Option.none⟩

/-- Parent view of the annotation on the destructured object parameter of
`function PureSendButton({...}: ...)`. -/
def c9ctx : ParentNode :=
  ⟨NodeType.ObjectPattern, "", Option.some c9grand, Option.none, "", false,
    Option.none, Option.none, ""⟩

/-- Ancestor chain of a class-property annotation whose class declaration sits
in a `switch` case inside a function body:
`function outer() { switch (x) { case 1: class C { p: { ... } } } }`.
Chain indices (start node = 0): 1 `PropertyDefinition`, 2 `ClassBody`,
3 `ClassDeclaration`, 4 `SwitchCase`, 5 `SwitchStatement`, 6 `BlockStatement`,
7 `FunctionDeclaration`, 8 `Program`. -/
def c10Chain : List ChainNode :=
  [⟨NodeType.PropertyDefinition, Option.none⟩,
   ⟨NodeType.ClassBody, Option.none⟩,
   ⟨NodeType.ClassDeclaration, Option.none⟩,
   ⟨NodeType.SwitchCase, Option.none⟩,
   ⟨NodeType.SwitchStatement, Option.none⟩,
   ⟨NodeType.BlockStatement, Option.none⟩,
   ⟨NodeType.FunctionDeclaration, Option.none⟩,
   ⟨NodeType.Program, Option.none⟩]

/-- Per-slot link between the code's detection and the spec's candidates: the
spec keeps exactly the detected literal ranges that span more than one
line. -/
theorem specAnnLiteral_eq_filter (ann : Option TsType) :
    specAnnLiteral ann = List.filter multilinePred (annLiteralRanges ann) := by
  match ann with
  | none => rfl
  | some (TsType.typeLiteral r ms) =>
      simp only [specAnnLiteral, annLiteralRanges, List.filter]
      cases multilinePred r <;> rfl
  | some (TsType.otherType r) => rfl

/-- The per-slot link lifted over a parameter list. -/
theorem paramRanges_filter : ∀ ps : List Param,
    paramRanges specAnnLiteral ps
      = List.filter multilinePred (paramRanges annLiteralRanges ps)
  | [] => rfl
  | Param.plain q :: rest => by
      rw [paramRanges, paramRanges, List.filter_append,
        specAnnLiteral_eq_filter, paramRanges_filter rest]
  | Param.parameterProperty q :: rest => by
      rw [paramRanges, paramRanges, List.filter_append,
        specAnnLiteral_eq_filter, paramRanges_filter rest]

mutual

/-- The per-slot link lifted over the whole traversal: spec candidates are
the detected findings restricted to multiline ranges. -/
theorem travStmts_filter : ∀ sl : StmtList,
    travStmts specAnnLiteral sl
      = List.filter multilinePred (travStmts annLiteralRanges sl)
  | StmtList.nil => rfl
  | StmtList.cons s rest => by
      rw [travStmts, travStmts, List.filter_append,
        travStmt_filter s, travStmts_filter rest]

/-- Statement case of `travStmts_filter`. -/
theorem travStmt_filter : ∀ s : Stmt,
    travStmt specAnnLiteral s
      = List.filter multilinePred (travStmt annLiteralRanges s)
  | Stmt.variableDeclaration ds => travDecls_filter ds
  | Stmt.functionDeclaration nm ps rt body => by
      rw [travStmt, travStmt, List.filter_append, List.filter_append,
        specAnnLiteral_eq_filter, paramRanges_filter, travStmts_filter body]
  | Stmt.classDeclaration nm ms => travMembers_filter ms
  | Stmt.typeAliasDeclaration nm rhs => rfl
  | Stmt.interfaceDeclaration nm ms => rfl
  | Stmt.exportNamedDeclaration d => travStmt_filter d
  | Stmt.exportDefaultDeclaration d => travStmt_filter d
  | Stmt.blockStatement b => travStmts_filter b
  | Stmt.expressionStatement e => travExpr_filter e

/-- Declarator case of `travStmts_filter`. -/
theorem travDecls_filter : ∀ ds : DeclList,
    travDecls specAnnLiteral ds
      = List.filter multilinePred (travDecls annLiteralRanges ds)
  | DeclList.nil => rfl
  | DeclList.cons id init rest => by
      rw [travDecls, travDecls, List.filter_append, List.filter_append,
        specAnnLiteral_eq_filter, travOptExpr_filter init, travDecls_filter rest]

/-- Initializer case of `travStmts_filter`. -/
theorem travOptExpr_filter : ∀ oe : OptExpr,
    travOptExpr specAnnLiteral oe
      = List.filter multilinePred (travOptExpr annLiteralRanges oe)
  | OptExpr.none => rfl
  | OptExpr.some e => travExpr_filter e

/-- Expression case of `travStmts_filter`. -/
theorem travExpr_filter : ∀ e : Expr,
    travExpr specAnnLiteral e
      = List.filter multilinePred (travExpr annLiteralRanges e)
  | Expr.functionExpression nm ps rt body => by
      rw [travExpr, travExpr, List.filter_append, List.filter_append,
        specAnnLiteral_eq_filter, paramRanges_filter, travStmts_filter body]
  | Expr.arrowFunctionExpression ps rt body => by
      rw [travExpr, travExpr, List.filter_append, List.filter_append,
        specAnnLiteral_eq_filter, paramRanges_filter, travStmts_filter body]
  | Expr.otherExpr => rfl

/-- Member-list case of `travStmts_filter`. -/
theorem travMembers_filter : ∀ ms : MemberList,
    travMembers specAnnLiteral ms
      = List.filter multilinePred (travMembers annLiteralRanges ms)
  | MemberList.nil => rfl
  | MemberList.cons m rest => by
      rw [travMembers, travMembers, List.filter_append,
        travMember_filter m, travMembers_filter rest]

/-- Member case of `travStmts_filter`. -/
theorem travMember_filter : ∀ m : ClassMember,
    travMember specAnnLiteral m
      = List.filter multilinePred (travMember annLiteralRanges m)
  | ClassMember.propertyDefinition key ann => specAnnLiteral_eq_filter ann
  | ClassMember.methodDefinition ps rt body => by
      rw [travMember, travMember, List.filter_append, List.filter_append,
        specAnnLiteral_eq_filter, paramRanges_filter, travStmts_filter body]

end

/-- The three concrete kinds behind `isFunctionType`. -/
theorem isFunctionType_elim (t : NodeType) (h : isFunctionType t = true) :
    t = NodeType.FunctionDeclaration ∨ t = NodeType.FunctionExpression ∨
      t = NodeType.ArrowFunctionExpression := by
  cases t <;> simp_all [isFunctionType]

/-- C1. The claim says a finding is produced only when the annotated object
literal spans more than one line, so a single-line annotation yields no
finding. On the single-line program `let cfg: { host: string; port: number };`
the rule nevertheless reports the literal: the source's
`checkMultilineLiteralInAnnotation` never inspects the literal's line span,
and the shipped test file lists exactly this program among the invalid cases.
The second conjunct records that the reported range is single-line. -/
theorem c1_counterexample :
    ruleFindings c1Prog = [c1Range] ∧ c1Range.startLine = c1Range.endLine :=
  ⟨rfl, rfl⟩

/-- C1, amended. A finding is produced for every object-type literal occupying
a visited annotation site — variable binding, function parameter, class
property, or return type — regardless of how many lines the literal's range
spans; single-line literals are flagged too, and only a slot whose type is not
an object literal yields no finding. Each conjunct holds for an arbitrary
range `r`, single-line or not. -/
theorem c1_amended :
    (∀ (nm : String) (r : Range) (ms : List (String × Option TsType))
        (rest : StmtList),
        ruleFindings (StmtList.cons (Stmt.variableDeclaration
            (DeclList.cons (Pat.ident nm (Option.some (TsType.typeLiteral r ms)))
              OptExpr.none DeclList.nil)) rest)
          = r :: ruleFindings rest)
    ∧ (∀ (fn : Option String) (pn : String) (r : Range)
        (ms : List (String × Option TsType)) (body rest : StmtList),
        ruleFindings (StmtList.cons (Stmt.functionDeclaration fn
            [Param.plain (Pat.ident pn (Option.some (TsType.typeLiteral r ms)))]
            Option.none body) rest)
          = r :: (ruleFindings body ++ ruleFindings rest))
    ∧ (∀ (cn : Option String) (key : String) (r : Range)
        (ms : List (String × Option TsType)) (rest : StmtList),
        ruleFindings (StmtList.cons (Stmt.classDeclaration cn
            (MemberList.cons (ClassMember.propertyDefinition key
              (Option.some (TsType.typeLiteral r ms))) MemberList.nil)) rest)
          = r :: ruleFindings rest)
    ∧ (∀ (fn : Option String) (r : Range) (ms : List (String × Option TsType))
        (body rest : StmtList),
        ruleFindings (StmtList.cons (Stmt.functionDeclaration fn []
            (Option.some (TsType.typeLiteral r ms)) body) rest)
          = r :: (ruleFindings body ++ ruleFindings rest)) := by
  refine ⟨?_, ?_, ?_, ?_⟩ <;> intros <;>
    simp [ruleFindings, travStmts, travStmt, travDecls, travOptExpr,
      paramRanges, annLiteralRanges, patAnn, travMembers, travMember]

/-- C2. A multiline object-type literal occupying a qualifying annotation site
produces exactly one finding, keyed by the literal's own range, and literals
nested strictly inside another literal's member types are never independently
flagged: for every multiline range, the number of findings carrying that range
equals the number of qualifying annotation sites whose direct literal carries
it (the spec-side candidate enumeration, which never descends into a
literal's members, so a strictly nested literal contributes to no site). -/
theorem c2_exactly_once (prog : StmtList) (r : Range)
    (h : ¬r.startLine = r.endLine) :
    List.count r (ruleFindings prog) = List.count r (specCandidates prog) := by
  have hp : multilinePred r = true := by
    simp [multilinePred]
    exact h
  rw [specCandidates, travStmts_filter, List.count_filter hp, ruleFindings]

/-- Witness for C2 on the `PureSendButton` program: the outer multiline
parameter literal is reported exactly once, and the multiline literal nested
inside one of its members is not reported at all. -/
theorem c2_witness :
    List.count r2outer (ruleFindings w2prog) = List.count r2outer (specCandidates w2prog)
      ∧ List.count r2nested (ruleFindings w2prog)
          = List.count r2nested (specCandidates w2prog)
      ∧ List.count r2outer (ruleFindings w2prog) = 1
      ∧ List.count r2nested (ruleFindings w2prog) = 0 :=
  ⟨c2_exactly_once w2prog r2outer (by decide),
   c2_exactly_once w2prog r2nested (by decide),
   by decide, by decide⟩

/-- C3. An object-type literal that is the direct right-hand side of a
type-alias declaration or the body of an interface declaration produces no
finding, however many lines it or its nested members span: neither declaration
contributes anything to the traversal, because the rule's three visitor keys
match no node inside those subtrees. -/
theorem c3_definitions_unflagged :
    (∀ (nm : String) (rhs : TsType),
        travStmt annLiteralRanges (Stmt.typeAliasDeclaration nm rhs) = [])
    ∧ (∀ (nm : String) (ms : List (String × Option TsType)),
        travStmt annLiteralRanges (Stmt.interfaceDeclaration nm ms) = []) :=
  ⟨fun _ _ => rfl, fun _ _ => rfl⟩

/-- C4. Whenever the fix callback produces a fix, it is exactly two edits: an
insertion, immediately before the resolved anchor's first character, of
`type <Name> = <verbatim literal text>;` followed by a blank line, and a
replacement of the literal's exact source range by the bare derived name,
with the same name in both edits. -/
theorem c4_fix_shape (inp : FixInput) (es : List Edit)
    (h : ruleFix inp = some es) :
    ∃ idx : Nat,
      findInsertionPointAncestor inp.startNode inp.ancestors = some idx ∧
      es = [Edit.insertBefore idx
              ("type " ++ deriveTypeName inp.parent ++ " = "
                ++ inp.literalText ++ ";\n\n"),
            Edit.replaceText inp.literalRange (deriveTypeName inp.parent)] := by
  simp only [ruleFix] at h
  cases hf : findInsertionPointAncestor inp.startNode inp.ancestors with
  | none => rw [hf] at h; exact absurd h (by simp)
  | some idx =>
      rw [hf] at h
      refine ⟨idx, rfl, ?_⟩
      exact (Option.some.inj h).symm

/-- Witness for C4 on the `cfg` example: the fix exists and has the required
two-edit shape. -/
theorem c4_witness :
    ∃ idx : Nat,
      findInsertionPointAncestor w4inp.startNode w4inp.ancestors = some idx ∧
      w4edits = [Edit.insertBefore idx
          ("type " ++ deriveTypeName w4inp.parent ++ " = "
            ++ w4inp.literalText ++ ";\n\n"),
        Edit.replaceText w4inp.literalRange (deriveTypeName w4inp.parent)] :=
  c4_fix_shape w4inp w4edits (by decide)

/-- C5. When insertion-point resolution fails for a candidate, the finding is
still reported, keyed by the literal's range, but carries no fix; and the
traversal of the rest of the file is unaffected by anything that happens at
one site, because the list of findings of `s :: rest` is always the findings
of `s` followed by the findings of `rest`. -/
theorem c5_fix_withheld :
    (∀ (site : AnnSite) (lit : LitNode),
        site.annType = NodeType.TSTypeAnn →
        site.inner = some lit →
        lit.type = NodeType.TSTypeLiteral →
        findInsertionPointAncestor site.startNode site.ancestors = none →
        checkMultilineLiteralInAnn (some site)
          = some { range := lit.range, fix := none })
    ∧ (∀ (f : Option TsType → List Range) (s : Stmt) (rest : StmtList),
        travStmts f (StmtList.cons s rest) = travStmt f s ++ travStmts f rest) := by
  constructor
  · intro site lit ha hi hl hf
    simp [checkMultilineLiteralInAnn, ha, hi, hl, ruleFix, hf]
  · intro f s rest
    rfl

/-- Witness for C5: a site whose chain reaches the program root without any
target declaration is still reported, with an absent fix. -/
theorem c5_witness :
    checkMultilineLiteralInAnn (some w5site)
        = some { range := w5lit.range, fix := none }
      ∧ travStmts annLiteralRanges
          (StmtList.cons (Stmt.expressionStatement Expr.otherExpr) StmtList.nil)
        = travStmt annLiteralRanges (Stmt.expressionStatement Expr.otherExpr)
          ++ travStmts annLiteralRanges StmtList.nil :=
  ⟨c5_fix_withheld.1 w5site w5lit rfl rfl rfl (by decide),
   c5_fix_withheld.2 annLiteralRanges (Stmt.expressionStatement Expr.otherExpr)
     StmtList.nil⟩

/-- C6. When the annotation's context matches none of the naming cases (the
absent-parent check included), the deriver returns the fixed fallback
`ExtractedType`; in this total embedding the source's `catch` branch, which
returns the same fallback on an internal exception, has no separate
representation. The finding itself never depends on the derived name: the
deriver is only invoked inside the fix callback, after the report is made. -/
theorem c6_fallback_name (p : Option ParentNode)
    (h : ∀ q : ParentNode, p = some q →
      case1Guard q = false ∧ case2aGuard q = false ∧ case2bGuard q = false ∧
      case3Guard q = false ∧ case4Guard q = false ∧ case5Guard q = false ∧
      case6Guard q = false ∧ case7Guard q = false) :
    deriveTypeName p = "ExtractedType" := by
  cases p with
  | none => rfl
  | some q =>
      obtain ⟨h1, h2a, h2b, h3, h4, h5, h6, h7⟩ := h q rfl
      simp [deriveTypeName, h1, h2a, h2b, h3, h4, h5, h6, h7]

/-- Witness for C6: an annotation hanging off an unhandled node kind falls
back to `ExtractedType`. -/
theorem c6_witness : deriveTypeName (some c6ctx) = "ExtractedType" :=
  c6_fallback_name (some c6ctx) (by intro q hq; cases hq; exact (by decide))

/-- C7. During insertion-point resolution: when the walk stands on a target
declaration whose parent is an export wrapper (a valid container), the
resolver returns the wrapper's index, not the declaration's; and when the walk
stands on an export wrapper whose wrapped declaration is a target kind, the
resolver returns that wrapper immediately (the first branch cannot fire there,
because export wrappers are not target kinds). -/
theorem c7_export_wrapper :
    (∀ (sn cur par : ChainNode) (idx : Nat) (above : List ChainNode),
        targetAncestorTypes cur.type = true →
        validParentContextTypes par.type = true →
        isExportType par.type = true →
        fipaGo sn cur idx (par :: above) = some (idx + 1))
    ∧ (∀ (sn cur par : ChainNode) (idx : Nat) (above : List ChainNode),
        isExportType cur.type = true →
        declarationIsTarget cur = true →
        fipaGo sn cur idx (par :: above) = some idx) := by
  constructor
  · intro sn cur par idx above ht hv he
    simp [fipaGo, ht, hv, he]
  · intro sn cur par idx above he hd
    have ht : targetAncestorTypes cur.type = false := by
      cases hc : cur.type <;> simp_all [isExportType, targetAncestorTypes]
    simp [fipaGo, ht, he, hd]

/-- Witness for C7: an exported class returns the export wrapper's index
(4, one above the class at 3), and a visited export wrapper holding a
function declaration returns its own index immediately. -/
theorem c7_witness :
    fipaGo ⟨NodeType.TSTypeAnn, Option.none⟩ ⟨NodeType.ClassDeclaration, Option.none⟩ 3
        [⟨NodeType.ExportNamedDeclaration, Option.none⟩, ⟨NodeType.Program, Option.none⟩]
      = some 4
    ∧ fipaGo ⟨NodeType.TSTypeAnn, Option.none⟩
        ⟨NodeType.ExportNamedDeclaration, Option.some NodeType.FunctionDeclaration⟩ 2
        [⟨NodeType.Program, Option.none⟩]
      = some 2 :=
  ⟨c7_export_wrapper.1 ⟨NodeType.TSTypeAnn, Option.none⟩
      ⟨NodeType.ClassDeclaration, Option.none⟩
      ⟨NodeType.ExportNamedDeclaration, Option.none⟩ 3
      [⟨NodeType.Program, Option.none⟩] (by decide) (by decide) (by decide),
   c7_export_wrapper.2 ⟨NodeType.TSTypeAnn, Option.none⟩
      ⟨NodeType.ExportNamedDeclaration, Option.some NodeType.FunctionDeclaration⟩
      ⟨NodeType.Program, Option.none⟩ 2 [] (by decide) (by decide)⟩

/-- C8. For a function-return-type context the deriver returns
`PascalCase(base) + "ReturnType"`, with `base` the function's own name when
present and non-empty; otherwise, when the anonymous function is immediately
assigned to a variable (declarator with identifier id), the variable's name;
otherwise the literal word `Function` (whose PascalCase form is itself). -/
theorem c8_return_type_name :
    (∀ (p : ParentNode) (n : String),
        isFunctionType p.type = true → p.isReturnTypeOfParent = true →
        p.funcIdName = some n → ¬n = "" →
        deriveTypeName (some p) = toPascalCase n ++ "ReturnType")
    ∧ (∀ (p : ParentNode) (g : GrandNode) (m : String),
        isFunctionType p.type = true → p.isReturnTypeOfParent = true →
        strFalsy p.funcIdName = true →
        p.grand = some g → g.gtype = NodeType.VariableDeclarator →
        g.idType = some NodeType.Identifier → g.idName = some m →
        deriveTypeName (some p) = toPascalCase m ++ "ReturnType")
    ∧ (∀ p : ParentNode,
        isFunctionType p.type = true → p.isReturnTypeOfParent = true →
        strFalsy p.funcIdName = true → grandIsVarDeclIdent p = false →
        deriveTypeName (some p) = "FunctionReturnType") := by
  refine ⟨?_, ?_, ?_⟩
  · intro p n hf hrt hfn hne
    obtain ⟨pt, pname, pg, pkt, pkn, prt, pfid, ppt, ppn⟩ := p
    simp only at hf hrt hfn
    subst hfn hrt
    rcases isFunctionType_elim pt hf with h | h | h <;> subst h <;>
      simp [deriveTypeName, case1Guard, case2aGuard, case2bGuard, case3Guard,
        case4Guard, case5Guard, case6Guard, case7Guard, isFunctionType,
        strFalsy, hne]
  · intro p g m hf hrt hfn hg hgt hit hin
    obtain ⟨pt, pname, pg, pkt, pkn, prt, pfid, ppt, ppn⟩ := p
    simp only at hf hrt hfn hg
    subst hrt hg
    rcases isFunctionType_elim pt hf with h | h | h <;> subst h <;>
      cases pfid with
      | none =>
          simp [deriveTypeName, case1Guard, case2aGuard, case2bGuard, case3Guard,
            case4Guard, case5Guard, case6Guard, case7Guard, isFunctionType,
            strFalsy, grandIsVarDeclIdent, grandIdNameOrEmpty, hgt, hit, hin]
      | some s =>
          have hs : s = "" := by simpa [strFalsy] using hfn
          subst hs
          simp [deriveTypeName, case1Guard, case2aGuard, case2bGuard, case3Guard,
            case4Guard, case5Guard, case6Guard, case7Guard, isFunctionType,
            strFalsy, grandIsVarDeclIdent, grandIdNameOrEmpty, hgt, hit, hin]
  · intro p hf hrt hfn hgv
    obtain ⟨pt, pname, pg, pkt, pkn, prt, pfid, ppt, ppn⟩ := p
    simp only at hf hrt hfn hgv
    subst hrt
    rcases isFunctionType_elim pt hf with h | h | h <;> subst h <;>
      cases pfid with
      | none =>
          simp [deriveTypeName, case1Guard, case2aGuard, case2bGuard, case3Guard,
            case4Guard, case5Guard, case6Guard, case7Guard, isFunctionType,
            strFalsy, hgv]
          decide
      | some s =>
          have hs : s = "" := by simpa [strFalsy] using hfn
          subst hs
          simp [deriveTypeName, case1Guard, case2aGuard, case2bGuard, case3Guard,
            case4Guard, case5Guard, case6Guard, case7Guard, isFunctionType,
            strFalsy, hgv]
          decide

/-- Witness for C8: `function fetchData(): {...}` derives
`FetchDataReturnType`. -/
theorem c8_witness : deriveTypeName (some c8ctx) = "FetchDataReturnType" := by
  have h := c8_return_type_name.1 c8ctx "fetchData" (by decide) rfl rfl (by decide)
  rw [h]
  decide

/-- C9. For a destructured-object-parameter context the deriver returns
`PascalCase(function name) + "Props"` when the enclosing function has a
non-empty name, and the fixed `PropsType` when it is anonymous. -/
theorem c9_props_name :
    (∀ (p : ParentNode) (g : GrandNode) (n : String),
        p.type = NodeType.ObjectPattern → p.grand = some g →
        isFunctionType g.gtype = true → g.idName = some n → ¬n = "" →
        deriveTypeName (some p) = toPascalCase n ++ "Props")
    ∧ (∀ (p : ParentNode) (g : GrandNode),
        p.type = NodeType.ObjectPattern → p.grand = some g →
        isFunctionType g.gtype = true → strFalsy g.idName = true →
        deriveTypeName (some p) = "PropsType") := by
  constructor
  · intro p g n hpt hg hf hin hne
    obtain ⟨pt, pname, pg, pkt, pkn, prt, pfid, ppt, ppn⟩ := p
    simp only at hpt hg
    subst hpt hg
    simp [deriveTypeName, case1Guard, case2aGuard, case2bGuard, case3Guard,
      case4Guard, case5Guard, case6Guard, case7Guard, hf, hin, hne]
  · intro p g hpt hg hf hfn
    obtain ⟨pt, pname, pg, pkt, pkn, prt, pfid, ppt, ppn⟩ := p
    simp only at hpt hg
    subst hpt hg
    cases hgi : g.idName with
    | none =>
        simp [deriveTypeName, case1Guard, case2aGuard, case2bGuard, case3Guard,
          case4Guard, case5Guard, case6Guard, case7Guard, hf, hgi]
    | some s =>
        have hs : s = "" := by
          rw [hgi] at hfn
          simpa [strFalsy] using hfn
        subst hs
        simp [deriveTypeName, case1Guard, case2aGuard, case2bGuard, case3Guard,
          case4Guard, case5Guard, case6Guard, case7Guard, hf, hgi]

/-- Witness for C9: the destructured parameter of
`function PureSendButton({...}: {...})` derives `PureSendButtonProps`. -/
theorem c9_witness : deriveTypeName (some c9ctx) = "PureSendButtonProps" := by
  have h := c9_props_name.1 c9ctx c9grand "PureSendButton" rfl rfl (by decide)
      rfl (by decide)
  rw [h]
  decide

/-- C10, counterexample. For the class-property annotation of
`function outer() { switch (x) { case 1: class C { p: {...} } } }`, resolution
succeeds, but the returned anchor (chain index 7) is the outer
`FunctionDeclaration` — not the enclosing `ClassDeclaration` (chain index 3)
and not an export wrapper: the class's own parent is a `SwitchCase`, which is
not a valid container, so the walk continues above the class. -/
theorem c10_counterexample :
    findInsertionPointAncestor ⟨NodeType.TSTypeAnn, Option.none⟩ c10Chain = some 7
      ∧ c10Chain[6]? = some ⟨NodeType.FunctionDeclaration, Option.none⟩
      ∧ c10Chain[2]? = some ⟨NodeType.ClassDeclaration, Option.none⟩ := by
  decide

/-- The walk of `fipaGo` through a run of inert nodes (no target kind, no
export wrapper, not the program root) ending at a class declaration whose
parent is a valid container: the walk returns the class's index, or the
parent's when the parent is an export wrapper. -/
theorem fipaGo_through_inert (sn cd pn : ChainNode) (rest : List ChainNode)
    (hcd : cd.type = NodeType.ClassDeclaration)
    (hpn : validParentContextTypes pn.type = true) :
    ∀ (inner : List ChainNode) (cur : ChainNode) (idx : Nat),
      targetAncestorTypes cur.type = false →
      isExportType cur.type = false →
      (∀ n ∈ inner, targetAncestorTypes n.type = false ∧
        isExportType n.type = false ∧ ¬n.type = NodeType.Program) →
      fipaGo sn cur idx (inner ++ cd :: pn :: rest)
        = some (if isExportType pn.type then idx + inner.length + 2
                else idx + inner.length + 1)
  | [], cur, idx, hct, hce, _ => by
      have hcdp : ¬cd.type = NodeType.Program := by rw [hcd]; decide
      have hcdt : targetAncestorTypes cd.type = true := by rw [hcd]; decide
      have hcde : isExportType cd.type = false := by rw [hcd]; decide
      simp only [List.nil_append, fipaGo, hct, hce, hcdp, Bool.false_and,
        Bool.and_false, if_false, if_neg hcdp]
      simp [fipaGo, hcdt, hpn, hcde]
      cases he : isExportType pn.type <;> simp [he]
  | m :: inner, cur, idx, hct, hce, hinner => by
      have hm := hinner m (by simp)
      have hrec := fipaGo_through_inert sn cd pn rest hcd hpn inner m (idx + 1)
        hm.1 hm.2.1 (fun n hn => hinner n (by simp [hn]))
      rw [List.cons_append]
      simp only [fipaGo, hct, hce, Bool.false_and, Bool.false_eq_true, if_false,
        List.append_eq]
      rw [if_neg hm.2.2, hrec]
      cases he : isExportType pn.type <;> simp [he] <;> omega

/-- C10, amended. The anchor is never a node strictly inside the class body:
for any annotation whose chain climbs through inert class-body nodes to the
enclosing class declaration, if the class declaration's own parent is a valid
container (program, block, or export wrapper), resolution returns the class
declaration's index — or the parent's index when that parent is an export
wrapper. (When the class's parent is not a valid container the walk continues
above the class and can return an outer declaration instead, as the
counterexample shows; it still never returns a node inside the class body.) -/
theorem c10_amended_anchor (sn : ChainNode) (inner : List ChainNode)
    (cd pn : ChainNode) (rest : List ChainNode)
    (hsn1 : targetAncestorTypes sn.type = false)
    (hsn2 : isExportType sn.type = false)
    (hinner : ∀ n ∈ inner, targetAncestorTypes n.type = false ∧
      isExportType n.type = false ∧ ¬n.type = NodeType.Program)
    (hcd : cd.type = NodeType.ClassDeclaration)
    (hpn : validParentContextTypes pn.type = true) :
    findInsertionPointAncestor sn (inner ++ cd :: pn :: rest)
      = some (if isExportType pn.type then inner.length + 2
              else inner.length + 1) := by
  have h := fipaGo_through_inert sn cd pn rest hcd hpn inner sn 0 hsn1 hsn2 hinner
  simpa [findInsertionPointAncestor] using h

/-- Witness for the amended C10: for a plain class property annotation
(chain start, `PropertyDefinition`, `ClassBody`, then the class under the
program root) the anchor is the class declaration itself, at chain
index 3. -/
theorem c10_witness :
    findInsertionPointAncestor ⟨NodeType.TSTypeAnn, Option.none⟩
        [⟨NodeType.PropertyDefinition, Option.none⟩,
         ⟨NodeType.ClassBody, Option.none⟩,
         ⟨NodeType.ClassDeclaration, Option.none⟩,
         ⟨NodeType.Program, Option.none⟩]
      = some 3 := by
  have h := c10_amended_anchor ⟨NodeType.TSTypeAnn, Option.none⟩
      [⟨NodeType.PropertyDefinition, Option.none⟩, ⟨NodeType.ClassBody, Option.none⟩]
      ⟨NodeType.ClassDeclaration, Option.none⟩ ⟨NodeType.Program, Option.none⟩ []
      (by decide) (by decide) (by decide) rfl (by decide)
  simpa [isExportType] using h
